import Mathlib

/-!
Shallow embedding of the AI-driven test-case generation and execution engine
(`scripts/test-cases.mjs` family; the authoritative version is the one with the
Refill Loop, signature deduplication and failure sub-classification).

Browser effects and the text-generation service are external: they are modelled
as oracle parameters (a function from step to an optional raw error message,
and a function from loop-iteration index to an optional parsed candidate list).
All program logic (validation, deduplication, the refill loop, step cleaning,
result recording, summary arithmetic, report building) is translated directly
from the source.
-/

/-- A step of a test-case design.  `selector`, `value`, `desc` are optional in
the AI output; JS `undefined` is modelled as `none`. -/
structure Step where
  action : String
  selector : Option String := none
  value : Option String := none
  desc : Option String := none
deriving Repr, DecidableEq

/-- An AI-authored test-case design.  A missing or non-array `steps` field is
modelled as `none`; a missing title as `""`. -/
structure TCDesign where
  id : String := ""
  title : String := ""
  precondition : String := ""
  testStep : String := ""
  expectedResults : String := ""
  steps : Option (List Step) := none
deriving Repr, DecidableEq

/-- JS falsiness of an optional string (`undefined`, `null` or `""`). -/
def strFalsy (s : Option String) : Bool :=
  match s with
  | none => true
  | some v => v = ""

/-- Does `needle` occur as a contiguous sublist of `hay`? -/
def infixOfList (needle : List Char) : List Char → Bool
  | [] => needle.isEmpty
  | c :: rest => needle.isPrefixOf (c :: rest) || infixOfList needle rest

/-- JS `String.prototype.includes`. -/
def containsStr (s sub : String) : Bool :=
  infixOfList sub.data s.data

/-- The `action:selector` fragment of one step used in the signature
(`s.selector || ''`). -/
def stepSig (s : Step) : String :=
  s.action ++ ":" ++ s.selector.getD ""

/-- Signature of a step list: the `|`-joined `action:selector` pairs. -/
def signatureOf (steps : List Step) : String :=
  String.intercalate "|" (steps.map stepSig)

/-- Signature of a design (its steps default to `[]` when absent). -/
def sigOfTC (tc : TCDesign) : String :=
  signatureOf (tc.steps.getD [])

/-- Whitespace stripping, `t.replace` with the whitespace regex, as a character list. -/
def stripWs (s : String) : List Char :=
  s.data.filter (fun c => !c.isWhitespace)

/-- The character set of a whitespace-stripped string
(`new Set(t.replace(/\s+/g, '').split(''))`). -/
def charSet (s : String) : Finset Char :=
  (stripWs s).toFinset

/-- Character-set Jaccard similarity of the whitespace-stripped strings.
`Rat` division gives `0/0 = 0`, matching the JS behaviour where
`NaN > 0.6` is false exactly when the union is empty. -/
def jaccard (t1 t2 : String) : Rat :=
  ((charSet t1 ∩ charSet t2).card : Rat) / ((charSet t1 ∪ charSet t2).card : Rat)

/-- Title similarity check `isSimilar` from `normalizeAndFilterTCs`: falsy guard, then Jaccard
similarity strictly above 0.6.  `intersection.size / union.size > 0.6` is
written in the exactly equivalent integer form
`10 * intersection.size > 6 * union.size`; for an empty union the JS code
compares `NaN > 0.6` (false), and `10 * 0 > 6 * 0` is false as well. -/
def isSimilar (t1 t2 : String) : Bool :=
  if t1 = "" || t2 = "" then false
  else 10 * (charSet t1 ∩ charSet t2).card > 6 * (charSet t1 ∪ charSet t2).card

/-- Rule 3: contains `click`/`clickNewTab` but no `check`. -/
def clickNoCheck (actions : List String) : Bool :=
  (actions.contains "click" || actions.contains "clickNewTab") && !actions.contains "check"

/-- Rule 4: some `click`/`type`/`check`/`clickNewTab` step has a falsy selector. -/
def missingSelector (steps : List Step) : Bool :=
  steps.any (fun s =>
    (["click", "type", "check", "clickNewTab"].contains s.action) && strFalsy s.selector)

/-- Rule 5: some step's (truthy) selector contains a forbidden construct. -/
def badSelector (steps : List Step) : Bool :=
  steps.any (fun s =>
    match s.selector with
    | none => false
    | some sel => !(sel = "") && (containsStr sel ":contains" || containsStr sel ":has-text"))

/-- Mutable state of `normalizeAndFilterTCs`: the accepted list being built,
plus the caller-supplied (and mutated) title list and signature set. -/
structure FilterState where
  valid : List TCDesign
  titles : List String
  sigs : List String
deriving Repr, DecidableEq

/-- One iteration of the `for (const tc of aiTCs)` loop in
`normalizeAndFilterTCs`, with the rejection rules in source order. -/
def filterOne (st : FilterState) (tc : TCDesign) : FilterState :=
  match tc.steps with
  | none => st
  | some steps =>
    let sig := signatureOf steps
    if st.sigs.contains sig then st
    else if st.titles.any (fun t => isSimilar t tc.title) then st
    else if steps.map (fun s => s.action) = ["check"] then st
    else if clickNoCheck (steps.map (fun s => s.action)) then st
    else if missingSelector steps then st
    else if badSelector steps then st
    else
      { valid := st.valid ++ [tc]
        titles := st.titles ++ [tc.title]
        sigs := st.sigs ++ [sig] }

/-- Validator `normalizeAndFilterTCs(aiTCs, existingTitles, signatureSet)`: returns the
accepted designs together with the mutated title list and signature set. -/
def normalizeAndFilterTCs (aiTCs : List TCDesign) (existingTitles : List String)
    (signatureSet : List String) : FilterState :=
  aiTCs.foldl filterOne ⟨[], existingTitles, signatureSet⟩

example :
    (normalizeAndFilterTCs
      [{ title := "abc", steps := some [⟨"check", some "#a", none, none⟩, ⟨"click", some "#a", none, none⟩] },
       { title := "abcd", steps := some [⟨"check", some "#b", none, none⟩, ⟨"click", some "#b", none, none⟩] },
       { title := "xyz", steps := some [⟨"click", some "#c", none, none⟩] }]
      [] []).valid.length = 1 := by decide

example :
    (normalizeAndFilterTCs [{ title := "t", steps := some [] }] [] []).valid.length = 1 := by
  decide

/-- Zero padding of a numeral to width 3, as in the id format. -/
def padStart3 (s : String) : String :=
  if s.length ≥ 3 then s else String.mk (List.replicate (3 - s.length) '0') ++ s

/-- Sequential id format, a TC- prefixed zero-padded numeral. -/
def tcIdString (n : Nat) : String :=
  "TC-" ++ padStart3 (toString n)

/-- The re-assignment of sequential ids to a freshly accepted batch:
`filtered.forEach((tc, idx) => tc.id = ...)` with `offset` the number of cases
already accepted. -/
def renumber (offset : Nat) (l : List TCDesign) : List TCDesign :=
  l.enum.map (fun p => { p.2 with id := tcIdString (offset + p.1 + 1) })

/-- Accumulated state of the Refill Loop in `generateTestCases`:
`allTestCases`, `allTitles` and `signatureSet`. -/
structure GenState where
  allTestCases : List TCDesign
  allTitles : List String
  signatureSet : List String
deriving Repr, DecidableEq

/-- One iteration body of the Refill Loop.  `resp` is the generation-service
outcome for this iteration: `none` for a transport failure, a non-OK status, a
JSON parse failure or a non-array parse (all of which leave the state
unchanged), `some parsed` for a parsed candidate array.  On success the batch
is filtered against the accumulated titles and signatures, renumbered
sequentially and appended; the title list receives the accepted titles twice
(once by the validator's mutation, once by the explicit append). -/
def genStep (st : GenState) (resp : Option (List TCDesign)) : GenState :=
  match resp with
  | none => st
  | some parsed =>
    let fs := normalizeAndFilterTCs parsed st.allTitles st.signatureSet
    let renumbered := renumber st.allTestCases.length fs.valid
    { allTestCases := st.allTestCases ++ renumbered
      allTitles := fs.titles ++ renumbered.map (fun tc => tc.title)
      signatureSet := fs.sigs }

/-- Retry budget `maxRetries` of the Refill Loop. -/
def maxRetries : Nat := 10

/-- State of the Refill Loop after `n` evaluations of the `while` guard
`allTestCases.length < TC_COUNT && retries < maxRetries` (the iteration
counter `retries` increments once per iteration, so at guard evaluation `n`
it equals `n`).  Once the guard fails the state is frozen. -/
def loopState (tcCount : Nat) (responses : Nat → Option (List TCDesign)) : Nat → GenState
  | 0 => ⟨[], [], []⟩
  | n + 1 =>
    let st := loopState tcCount responses n
    if st.allTestCases.length < tcCount ∧ n < maxRetries then genStep st (responses n) else st

/-- Refill Loop entry point `generateTestCases`: the accepted case list after the loop has
exhausted its retry budget or met the target. -/
def generateTestCases (tcCount : Nat) (responses : Nat → Option (List TCDesign)) :
    List TCDesign :=
  (loopState tcCount responses maxRetries).allTestCases

example :
    (generateTestCases 3 (fun _ => none)).length = 0 := by decide

example :
    (generateTestCases 1 (fun _ =>
      some [{ title := "abc", steps := some [⟨"check", some "#a", none, none⟩] ,
              precondition := "p" }])).length = 0 := by decide

/-- The error object thrown out of `runPlaybookAction`'s catch block:
`throw { message: e.message, failType }`. -/
structure ExecError where
  message : String
  failType : String
deriving Repr, DecidableEq

/-- Lower-casing of an error message (the messages inspected are ASCII). -/
def lowerString (s : String) : String :=
  String.mk (s.data.map Char.toLower)

/-- The message-content reclassification in `runPlaybookAction`'s catch block
(`Fail 타입 세분화`). -/
def classifyFail (rawMsg : String) : String :=
  let msg := lowerString rawMsg
  if containsStr msg "locator" || containsStr msg "selector" then "Fail-Selector"
  else if containsStr msg "expect" || containsStr msg "visible" then "Fail-Assertion"
  else if containsStr msg "timeout" || containsStr msg "navigation" then "Fail-Navigation"
  else "Fail-General"

/-- Action dispatch `runPlaybookAction(page, context, step)`.  The browser is external, so the
action dispatch is modelled by an oracle `env` giving the raw error message a
step's execution raises inside the try block (`none` when the step completes).
The function's own contribution — catching the error and attaching the
sub-classification — is translated from the source. -/
def runPlaybookAction (env : Step → Option String) (step : Step) : Except ExecError Unit :=
  match env step with
  | none => Except.ok ()
  | some m => Except.error { message := m, failType := classifyFail m }

/-- Sequential step execution over the cleaned step list: steps run
in order, stopping at the first thrown error. -/
def runSteps (env : Step → Option String) : List Step → Except ExecError Unit
  | [] => Except.ok ()
  | s :: rest =>
    match runPlaybookAction env s with
    | Except.ok _ => runSteps env rest
    | Except.error e => Except.error e

/-- Step cleaning `cleanSteps`: drop a `wait` step in the leading position
(`steps.filter((step, idx) => step.action === 'wait' ? idx > 0 : true)`). -/
def cleanSteps (steps : List Step) : List Step :=
  (steps.enum.filter (fun p => if p.2.action = "wait" then decide (p.1 > 0) else true)).map
    (fun p => p.2)

/-- One row of the run's result table (the mutable `tc` object built per
executed case). -/
structure RowTC where
  id : String
  title : String
  precondition : String
  testStep : String
  expectedResults : String
  result : String
  log : String
  code : String
deriving Repr, DecidableEq

/-- Model of `JSON.stringify` for one step object, for the audit `code` field
(whitespace and escaping of the real `JSON.stringify(steps, null, 2)` are not
reproduced; no claim inspects this string). -/
def stepFieldJson (k : String) (v : Option String) : List String :=
  match v with
  | none => []
  | some x => ["\"" ++ k ++ "\": \"" ++ x ++ "\""]

/-- JSON-like rendering of one step. -/
def stepJson (s : Step) : String :=
  "\x7b" ++
    String.intercalate ", "
      (["\"action\": \"" ++ s.action ++ "\""] ++ stepFieldJson "selector" s.selector ++
        stepFieldJson "value" s.value ++ stepFieldJson "desc" s.desc) ++
    "\x7d"

/-- Serialization of the design steps for the audit field (an absent `steps` field serializes to
`undefined`). -/
def serializeSteps : Option (List Step) → String
  | none => "undefined"
  | some l => "[" ++ String.intercalate ",\n" (l.map stepJson) ++ "]"

/-- The body of the per-case try block after the isolation phase: run the
cleaned steps, then apply the post hoc `hasAssertion` check; the catch block
sets `result` to the *plain* string `'Fail'` and `log` to `e.message`
(discarding `e.failType`). -/
def runCaseBody (env : Step → Option String) (t : TCDesign) (base : RowTC) : RowTC :=
  match t.steps with
  | some steps =>
    let cleanedSteps := cleanSteps steps
    let hasAssertion := cleanedSteps.any (fun s => s.action = "check")
    match runSteps env cleanedSteps with
    | Except.error e => { base with result := "Fail", log := e.message }
    | Except.ok _ =>
      if !hasAssertion then { base with result := "Fail", log := "No validation(check) step" }
      else { base with result := "Pass" }
  | none => { base with result := "Fail", log := "No steps provided in AI design" }

/-- One executed case.  `isoErr` is the oracle outcome of the per-case
isolation phase (clear cookies, clear local/session storage, re-navigate):
`some msg` when that phase throws.  The source wraps it in
`try { ... } catch (e) { /* ignore reload warns */ }`, so both branches
continue into the same body. -/
def runCase (isoErr : Option String) (env : Step → Option String) (t : TCDesign) : RowTC :=
  let base : RowTC :=
    { id := t.id, title := t.title, precondition := t.precondition, testStep := t.testStep,
      expectedResults := t.expectedResults, result := "N/A", log := "",
      code := serializeSteps t.steps }
  match isoErr with
  | some _ => runCaseBody env t base
  | none => runCaseBody env t base

/-- JS `String.prototype.startsWith`. -/
def startsWithStr (s pre : String) : Bool :=
  pre.data.isPrefixOf s.data

/-- One `record(tc)` call threaded through the `(pass, fail, na)` counters. -/
def recordStep (acc : Nat × Nat × Nat) (tc : RowTC) : Nat × Nat × Nat :=
  if tc.result = "Pass" then (acc.1 + 1, acc.2.1, acc.2.2)
  else if startsWithStr tc.result "Fail" then (acc.1, acc.2.1 + 1, acc.2.2)
  else (acc.1, acc.2.1, acc.2.2 + 1)

/-- The `(pass, fail, na)` counters after every row has been recorded. -/
def recordAll (rows : List RowTC) : Nat × Nat × Nat :=
  rows.foldl recordStep (0, 0, 0)

/-- Exact mathematical round-half-up of a non-negative rational: the reading
of `Math.round(100 * passed / total)` over exact arithmetic.  The program
itself computes in IEEE-754 doubles (see `successRateJS`), which can differ
from this exact value by one at double-rounding boundaries. -/
def jsRound (q : Rat) : Int := ⌊q + 1 / 2⌋

/-- Floor of the base-2 logarithm, by fuelled halving (the fuel `n` suffices
since at most `n` halvings reach 1). -/
def log2Aux : Nat → Nat → Nat
  | 0, _ => 0
  | fuel + 1, n => if n ≤ 1 then 0 else log2Aux fuel (n / 2) + 1

/-- Floor of the base-2 logarithm of a positive natural. -/
def log2N (n : Nat) : Nat := log2Aux n n

/-- Exact round-to-nearest, ties-to-even, of the quotient `x / y`: the IEEE-754
rounding of a positive rational to an integer quantum. -/
def roundEvenDiv (x y : Nat) : Nat :=
  let q := x / y
  let r := x % y
  if 2 * r < y then q
  else if y < 2 * r then q + 1
  else if q % 2 = 0 then q else q + 1

/-- Floor of the base-2 logarithm of the positive rational `a / b`, computed
exactly by integer comparison (`a / b` is at least `2 ^ (la - lb)` exactly
when `a * 2 ^ lb` is at least `b * 2 ^ la`). -/
def ratFloorLog2 (a b : Nat) : Int :=
  let la := log2N a
  let lb := log2N b
  if b * 2 ^ la ≤ a * 2 ^ lb then (la : Int) - lb else (la : Int) - lb - 1

/-- IEEE-754 double-precision (binary64) rounding of the quotient `a / b` of
two exactly representable naturals, as an exact dyadic pair `(m, e)` with
value `m * 2 ^ e`: round to nearest, ties to even, 53-bit significand, with
gradual underflow (quantum clamped at `2 ^ (-1074)`).  Overflow cannot occur
at the call sites (the quotient is at most 1). -/
def divToDouble (a b : Nat) : Nat × Int :=
  let fl := ratFloorLog2 a b
  if fl < -1022 then (roundEvenDiv (a * 2 ^ 1074) b, -1074)
  else
    let j : Int := 52 - fl
    let m :=
      if 0 ≤ j then roundEvenDiv (a * 2 ^ j.toNat) b
      else roundEvenDiv a (b * 2 ^ (-j).toNat)
    if m = 2 ^ 53 then (2 ^ 52, fl - 51) else (m, fl - 52)

/-- IEEE-754 double multiplication of the dyadic double `(m, e)` by the
exactly representable constant 100: the exact product re-rounded to a 53-bit
significand (a product below `2 ^ 53` at the same exponent is exact). -/
def mul100Round (m : Nat) (e : Int) : Nat × Int :=
  if m = 0 then (0, 0)
  else
    let p := m * 100
    let l := log2N p
    if l ≤ 52 then (p, e)
    else
      let s := l - 52
      let m2 := roundEvenDiv p (2 ^ s)
      if m2 = 2 ^ 53 then (2 ^ 52, e + s + 1) else (m2, e + (s : Int))

/-- ECMAScript `Math.round` applied to the exact value `m * 2 ^ e` of a
non-negative double: the closest integer, ties toward positive infinity
(`⌊v + 1/2⌋`, computed exactly on the dyadic value). -/
def roundHalfUp (m : Nat) (e : Int) : Int :=
  if 0 ≤ e then (m * 2 ^ e.toNat : Int)
  else
    let d := 2 ^ (-e).toNat
    (((2 * m + d) / (2 * d) : Nat) : Int)

/-- The report block's `Math.round((pass / rows.length) * 100)` as the source
computes it: `pass` and `rows.length` are exactly representable doubles (a JS
array length is below `2 ^ 32`), the division and the multiplication each
round to nearest-even at 53 bits, and `Math.round` acts on the exact value of
the resulting double. -/
def successRateJS (p t : Nat) : Int :=
  let md := divToDouble p t
  let mp := mul100Round md.1 md.2
  roundHalfUp mp.1 mp.2

/-- Cumulative token usage counters. -/
structure Usage where
  prompt_tokens : Nat
  completion_tokens : Nat
  total_tokens : Nat
deriving Repr, DecidableEq

/-- One entry of the persisted report's `testCases` array. -/
structure ReportTC where
  id : String
  title : String
  precondition : String
  testStep : String
  expectedResults : String
  result : String
  details : String
  code : String
deriving Repr, DecidableEq

/-- The persisted report's `summary` object. -/
structure Summary where
  total : Nat
  passed : Nat
  failed : Nat
  blocked : Nat
  na : Nat
  successRate : Int
  warning : Option String
deriving Repr, DecidableEq

/-- The persisted report document. -/
structure Report where
  url : String
  timestamp : String
  error : Option String
  usage : Usage
  testCases : List ReportTC
  summary : Summary
deriving Repr, DecidableEq

/-- The shortfall warning text. -/
def warnText (tcCount caseCount : Nat) : String :=
  "⚠️ 목표 개수(" ++ toString tcCount ++ "개)를 채우지 못했습니다. (생성된 TC: " ++
    toString caseCount ++ "개)"

/-- The report object written by the report block: `testCases` maps each row
(`details` carries the row's `log`), and `summary` is computed from the
`record` counters. -/
def buildReport (url timestamp : String) (tcCount : Nat) (fatalError : Option String)
    (usage : Usage) (rows : List RowTC) : Report :=
  let counts := recordAll rows
  { url := url, timestamp := timestamp, error := fatalError, usage := usage
    testCases := rows.map (fun row =>
      { id := row.id, title := row.title, precondition := row.precondition,
        testStep := row.testStep, expectedResults := row.expectedResults,
        result := row.result, details := row.log, code := row.code })
    summary :=
      { total := rows.length
        passed := counts.1
        failed := counts.2.1
        blocked := 0
        na := counts.2.2
        successRate :=
          if rows.length > 0 then successRateJS counts.1 rows.length else 0
        warning :=
          if rows.length < tcCount then some (warnText tcCount rows.length) else none } }

/-- The fatal-error message rewriting for known network errors. -/
def rewriteFatal (m : String) : String :=
  if containsStr m "ERR_NAME_NOT_RESOLVED" then
    "URL을 찾을 수 없습니다. 주소를 확인해주세요. (ERR_NAME_NOT_RESOLVED)"
  else if containsStr m "ERR_CONNECTION_REFUSED" then
    "서버 연결이 거부되었습니다. (ERR_CONNECTION_REFUSED)"
  else m

/-- The Session Controller: navigate and extract context (`nav`, whose failure
is the fatal-error path), run the Refill Loop once, and either exit with
status 1 when no case was generated (`process.exit(1)` — modelled as `none`:
the run ends and no report is written) or execute every case in order and
write the report.  A `some` result is the persisted report document. -/
def sessionRun (url timestamp : String) (tcCount : Nat) (nav : Except String Unit)
    (responses : Nat → Option (List TCDesign)) (usage : Usage)
    (isoErrs : Nat → Option String) (env : Step → Option String) : Option Report :=
  match nav with
  | Except.error msg =>
    some (buildReport url timestamp tcCount (some (rewriteFatal msg)) usage [])
  | Except.ok _ =>
    let dynamicTCS := generateTestCases tcCount responses
    if dynamicTCS.length = 0 then none
    else
      some (buildReport url timestamp tcCount none usage
        (dynamicTCS.enum.map (fun p => runCase (isoErrs p.1) env p.2)))

example :
    (runCase none (fun _ => none)
      { id := "TC-001", title := "t",
        steps := some [⟨"check", some "#a", none, none⟩] }).result = "Pass" := by decide

example :
    (runCase none (fun _ => some "locator not found")
      { id := "TC-001", title := "t",
        steps := some [⟨"check", some "#a", none, none⟩] }).result = "Fail" := by decide

example : classifyFail "locator not found" = "Fail-Selector" := by decide

example :
    (buildReport "u" "ts" 2 none ⟨0, 0, 0⟩
      [{ id := "TC-001", title := "t", precondition := "", testStep := "",
         expectedResults := "", result := "Pass", log := "", code := "" }]).summary.passed
      = 1 := by decide

/-- JSON values, for the persisted report format
(`JSON.stringify` / re-parse round trip at the value level). -/
inductive Json where
  | null : Json
  | str : String → Json
  | num : Int → Json
  | arr : List Json → Json
  | obj : List (String × Json) → Json

/-- A nullable string field (`error`, `warning`). -/
def encodeOptStr : Option String → Json
  | none => Json.null
  | some s => Json.str s

/-- Serialization of the `usage` object. -/
def encodeUsage (u : Usage) : Json :=
  Json.obj
    [("prompt_tokens", Json.num u.prompt_tokens),
     ("completion_tokens", Json.num u.completion_tokens),
     ("total_tokens", Json.num u.total_tokens)]

/-- Serialization of one `testCases` entry. -/
def encodeTC (tc : ReportTC) : Json :=
  Json.obj
    [("id", Json.str tc.id), ("title", Json.str tc.title),
     ("precondition", Json.str tc.precondition), ("testStep", Json.str tc.testStep),
     ("expectedResults", Json.str tc.expectedResults), ("result", Json.str tc.result),
     ("details", Json.str tc.details), ("code", Json.str tc.code)]

/-- Serialization of the `summary` object. -/
def encodeSummary (s : Summary) : Json :=
  Json.obj
    [("total", Json.num s.total), ("passed", Json.num s.passed),
     ("failed", Json.num s.failed), ("blocked", Json.num s.blocked),
     ("na", Json.num s.na), ("successRate", Json.num s.successRate),
     ("warning", encodeOptStr s.warning)]

/-- Serialization of the whole report document, in the field order of the
persisted JSON. -/
def encodeReport (r : Report) : Json :=
  Json.obj
    [("url", Json.str r.url), ("timestamp", Json.str r.timestamp),
     ("error", encodeOptStr r.error), ("usage", encodeUsage r.usage),
     ("testCases", Json.arr (r.testCases.map encodeTC)),
     ("summary", encodeSummary r.summary)]

/-- Field lookup in a parsed JSON object. -/
def getField (j : Json) (k : String) : Option Json :=
  match j with
  | Json.obj l => l.lookup k
  | _ => none

/-- Read a string field. -/
def asStr : Option Json → Option String
  | some (Json.str s) => some s
  | _ => none

/-- Read an integer field. -/
def asNum : Option Json → Option Int
  | some (Json.num n) => some n
  | _ => none

/-- Read a nullable string field. -/
def asOptStr : Option Json → Option (Option String)
  | some Json.null => some none
  | some (Json.str s) => some (some s)
  | _ => none

/-- Parse the `usage` object back. -/
def decodeUsage (j : Json) : Option Usage := do
  let p ← asNum (getField j "prompt_tokens")
  let c ← asNum (getField j "completion_tokens")
  let t ← asNum (getField j "total_tokens")
  pure { prompt_tokens := p.toNat, completion_tokens := c.toNat, total_tokens := t.toNat }

/-- Parse one `testCases` entry back. -/
def decodeTC (j : Json) : Option ReportTC := do
  let id ← asStr (getField j "id")
  let title ← asStr (getField j "title")
  let precondition ← asStr (getField j "precondition")
  let testStep ← asStr (getField j "testStep")
  let expectedResults ← asStr (getField j "expectedResults")
  let result ← asStr (getField j "result")
  let details ← asStr (getField j "details")
  let code ← asStr (getField j "code")
  pure { id := id, title := title, precondition := precondition, testStep := testStep,
         expectedResults := expectedResults, result := result, details := details, code := code }

/-- Parse a `testCases` array back. -/
def decodeTCs : List Json → Option (List ReportTC)
  | [] => some []
  | j :: rest => do
    let tc ← decodeTC j
    let rest2 ← decodeTCs rest
    pure (tc :: rest2)

/-- Parse the `summary` object back. -/
def decodeSummary (j : Json) : Option Summary := do
  let total ← asNum (getField j "total")
  let passed ← asNum (getField j "passed")
  let failed ← asNum (getField j "failed")
  let blocked ← asNum (getField j "blocked")
  let na ← asNum (getField j "na")
  let successRate ← asNum (getField j "successRate")
  let warning ← asOptStr (getField j "warning")
  pure { total := total.toNat, passed := passed.toNat, failed := failed.toNat,
         blocked := blocked.toNat, na := na.toNat, successRate := successRate,
         warning := warning }

/-- Parse the report document back. -/
def decodeReport (j : Json) : Option Report := do
  let url ← asStr (getField j "url")
  let timestamp ← asStr (getField j "timestamp")
  let error ← asOptStr (getField j "error")
  let usage ←
    match getField j "usage" with
    | some ju => decodeUsage ju
    | none => none
  let testCases ←
    match getField j "testCases" with
    | some (Json.arr l) => decodeTCs l
    | _ => none
  let summary ←
    match getField j "summary" with
    | some js => decodeSummary js
    | none => none
  pure { url := url, timestamp := timestamp, error := error, usage := usage,
         testCases := testCases, summary := summary }

theorem decodeTC_encodeTC (tc : ReportTC) : decodeTC (encodeTC tc) = some tc := by
  cases tc
  rfl

theorem decodeTCs_map_encodeTC (l : List ReportTC) :
    decodeTCs (l.map encodeTC) = some l := by
  induction l with
  | nil => rfl
  | cons tc rest ih =>
    simp only [List.map_cons, decodeTCs, decodeTC_encodeTC, ih]
    rfl

theorem decodeUsage_encodeUsage (u : Usage) : decodeUsage (encodeUsage u) = some u := by
  cases u
  rfl

theorem decodeSummary_encodeSummary (s : Summary) :
    decodeSummary (encodeSummary s) = some s := by
  obtain ⟨t, p, f, b, na, sr, w⟩ := s
  cases w <;> rfl

/-- Full round trip of the persisted document at the JSON-value level. -/
theorem decodeReport_encodeReport (r : Report) : decodeReport (encodeReport r) = some r := by
  obtain ⟨url, ts, err, usage, tcs, summ⟩ := r
  cases err <;>
    simp [decodeReport, encodeReport, getField, List.lookup, encodeOptStr,
      decodeTCs_map_encodeTC, decodeUsage_encodeUsage, decodeSummary_encodeSummary,
      asStr, asOptStr]

theorem foldl_recordStep (rows : List RowTC) (p f n : Nat) :
    rows.foldl recordStep (p, f, n) =
      (p + rows.countP (fun r => decide (r.result = "Pass")),
       f + rows.countP (fun r => startsWithStr r.result "Fail"),
       n + rows.countP (fun r =>
            !(decide (r.result = "Pass")) && !(startsWithStr r.result "Fail"))) := by
  induction rows generalizing p f n with
  | nil => simp
  | cons r rest ih =>
    have hpf : startsWithStr "Pass" "Fail" = false := rfl
    by_cases h1 : r.result = "Pass"
    · simp [recordStep, h1, hpf, List.countP_cons, ih, Prod.ext_iff]
      omega
    · by_cases h2 : startsWithStr r.result "Fail"
      · simp [recordStep, h1, h2, List.countP_cons, ih, Prod.ext_iff]
        omega
      · simp [recordStep, h1, h2, List.countP_cons, ih, Prod.ext_iff]
        omega

theorem recordAll_eq (rows : List RowTC) :
    recordAll rows =
      (rows.countP (fun r => decide (r.result = "Pass")),
       rows.countP (fun r => startsWithStr r.result "Fail"),
       rows.countP (fun r =>
         !(decide (r.result = "Pass")) && !(startsWithStr r.result "Fail"))) := by
  have := foldl_recordStep rows 0 0 0
  simpa [recordAll] using this

theorem countP_record_partition (rows : List RowTC) :
    rows.countP (fun r => decide (r.result = "Pass")) +
      rows.countP (fun r => startsWithStr r.result "Fail") +
      rows.countP (fun r =>
        !(decide (r.result = "Pass")) && !(startsWithStr r.result "Fail")) =
      rows.length := by
  induction rows with
  | nil => simp
  | cons r rest ih =>
    have hpf : startsWithStr "Pass" "Fail" = false := rfl
    by_cases h1 : r.result = "Pass"
    · simp [List.countP_cons, h1, hpf]
      omega
    · by_cases h2 : startsWithStr r.result "Fail"
      · simp [List.countP_cons, h1, h2]
        omega
      · simp [List.countP_cons, h1, h2]
        omega

/-- C6: in every report built by the report block, `summary.total` equals the
length of the `testCases` array and `passed + failed + blocked + na` equals
`total`, and the report survives a serialize/re-parse round trip unchanged
(so the re-parsed summary satisfies the same equalities). -/
theorem report_summary_consistent (url ts : String) (tcCount : Nat) (fatal : Option String)
    (usage : Usage) (rows : List RowTC) :
    decodeReport (encodeReport (buildReport url ts tcCount fatal usage rows)) =
        some (buildReport url ts tcCount fatal usage rows) ∧
    (buildReport url ts tcCount fatal usage rows).summary.total =
        (buildReport url ts tcCount fatal usage rows).testCases.length ∧
    (buildReport url ts tcCount fatal usage rows).summary.passed +
        (buildReport url ts tcCount fatal usage rows).summary.failed +
        (buildReport url ts tcCount fatal usage rows).summary.blocked +
        (buildReport url ts tcCount fatal usage rows).summary.na =
      (buildReport url ts tcCount fatal usage rows).summary.total := by
  refine ⟨decodeReport_encodeReport _, ?_, ?_⟩
  · simp [buildReport]
  · simp [buildReport, recordAll_eq]
    have := countP_record_partition rows
    omega

/-- C7 counterexample: with 23 of 40 recorded cases passing, the double
arithmetic of the report block evaluates `(23 / 40) * 100` to
`57.49999999999999289…` (the quotient rounds below `0.575`), whose
`Math.round` is 57, while the claim's exact `round(100 * 23 / 40)` is
`round(57.5) = 58`. -/
theorem successRate_exact_round_counterexample :
    (buildReport "https://example.com" "2026-10-11T00:00:00.000Z" 40 none ⟨0, 0, 0⟩
        (List.replicate 23
          { id := "", title := "", precondition := "", testStep := "",
            expectedResults := "", result := "Pass", log := "", code := "" } ++
         List.replicate 17
          { id := "", title := "", precondition := "", testStep := "",
            expectedResults := "", result := "Fail", log := "", code := "" })).summary.passed
      = 23 ∧
    (buildReport "https://example.com" "2026-10-11T00:00:00.000Z" 40 none ⟨0, 0, 0⟩
        (List.replicate 23
          { id := "", title := "", precondition := "", testStep := "",
            expectedResults := "", result := "Pass", log := "", code := "" } ++
         List.replicate 17
          { id := "", title := "", precondition := "", testStep := "",
            expectedResults := "", result := "Fail", log := "", code := "" })).summary.total
      = 40 ∧
    (buildReport "https://example.com" "2026-10-11T00:00:00.000Z" 40 none ⟨0, 0, 0⟩
        (List.replicate 23
          { id := "", title := "", precondition := "", testStep := "",
            expectedResults := "", result := "Pass", log := "", code := "" } ++
         List.replicate 17
          { id := "", title := "", precondition := "", testStep := "",
            expectedResults := "", result := "Fail", log := "", code := "" })).summary.successRate
      = 57 ∧
    jsRound (100 * (23 : Rat) / 40) = 58 := by
  refine ⟨by decide, by decide, by decide, ?_⟩
  simp only [jsRound]
  rw [show (100 * (23 : Rat) / 40 + 1 / 2) = ((58 : Int) : Rat) by norm_num]
  exact Int.floor_intCast 58

/-- C7 (amended): in every report built by the report block,
`summary.successRate` is `Math.round((passed / total) * 100)` as evaluated in
IEEE-754 double arithmetic (`successRateJS`), which can differ by one from
the exact `round(100 * passed / total)` at double-rounding boundaries; the
denominator `total` counts all recorded cases — N/A cases included, since
`total = passed + failed + na` — and `successRate = 0` when `total = 0`. -/
theorem report_successRate_double (url ts : String) (tcCount : Nat) (fatal : Option String)
    (usage : Usage) (rows : List RowTC) :
    (buildReport url ts tcCount fatal usage rows).summary.successRate =
        (if (buildReport url ts tcCount fatal usage rows).summary.total = 0 then 0
         else
           successRateJS (buildReport url ts tcCount fatal usage rows).summary.passed
             (buildReport url ts tcCount fatal usage rows).summary.total) ∧
    (buildReport url ts tcCount fatal usage rows).summary.total =
      (buildReport url ts tcCount fatal usage rows).summary.passed +
        (buildReport url ts tcCount fatal usage rows).summary.failed +
        (buildReport url ts tcCount fatal usage rows).summary.na := by
  constructor
  · simp only [buildReport]
    rcases Nat.eq_zero_or_pos rows.length with h | h
    · simp [h]
    · have h0 : ¬rows.length = 0 := by omega
      simp [h, h0]
  · simp [buildReport, recordAll_eq]
    have := countP_record_partition rows
    omega

/-- C9: in every report built by the report block, `summary.blocked` is the
literal `0`; `record` counts a case under `passed` exactly when its result
equals `"Pass"`, under `failed` exactly when its result starts with `"Fail"`,
and everything else — including a result string `"Blocked"` — under `na`, so
no run reports a non-zero blocked count. -/
theorem report_blocked_zero (url ts : String) (tcCount : Nat) (fatal : Option String)
    (usage : Usage) (rows : List RowTC) :
    (buildReport url ts tcCount fatal usage rows).summary.blocked = 0 ∧
    (buildReport url ts tcCount fatal usage rows).summary.passed =
        rows.countP (fun r => decide (r.result = "Pass")) ∧
    (buildReport url ts tcCount fatal usage rows).summary.failed =
        rows.countP (fun r => startsWithStr r.result "Fail") ∧
    (buildReport url ts tcCount fatal usage rows).summary.na =
      rows.countP (fun r =>
        !(decide (r.result = "Pass")) && !(startsWithStr r.result "Fail")) := by
  refine ⟨rfl, ?_, ?_, ?_⟩ <;> simp [buildReport, recordAll_eq]

theorem runSteps_ok_of_none (env : Step → Option String) (l : List Step)
    (h : ∀ s ∈ l, env s = none) : runSteps env l = Except.ok () := by
  induction l with
  | nil => rfl
  | cons s rest ih =>
    have hs := h s (List.mem_cons_self s rest)
    simp only [runSteps, runPlaybookAction, hs]
    exact ih fun x hx => h x (List.mem_cons_of_mem s hx)

/-- C8: a case whose cleaned step list (steps minus a leading `wait`) contains
no `check` action is recorded as `Fail` with the `No validation(check) step`
log even when every individual step executes without throwing. -/
theorem no_check_step_forces_fail (isoErr : Option String) (env : Step → Option String)
    (t : TCDesign) (steps : List Step)
    (hsteps : t.steps = some steps)
    (hok : ∀ s ∈ cleanSteps steps, env s = none)
    (hnocheck : ∀ s ∈ cleanSteps steps, ¬s.action = "check") :
    (runCase isoErr env t).result = "Fail" ∧
      (runCase isoErr env t).log = "No validation(check) step" := by
  have hrun : runSteps env (cleanSteps steps) = Except.ok () :=
    runSteps_ok_of_none env (cleanSteps steps) hok
  have hasA : (cleanSteps steps).any (fun s => s.action = "check") = false := by
    simp only [List.any_eq_false, decide_eq_true_eq]
    exact hnocheck
  cases isoErr <;> simp [runCase, runCaseBody, hsteps, hrun, hasA]

theorem no_check_step_forces_fail_witness :
    (runCase none (fun _ => none)
        { id := "TC-001", title := "w", steps := some [⟨"click", some "#a", none, none⟩] }).result
        = "Fail" ∧
      (runCase none (fun _ => none)
        { id := "TC-001", title := "w", steps := some [⟨"click", some "#a", none, none⟩] }).log
        = "No validation(check) step" :=
  no_check_step_forces_fail none (fun _ => none)
    { id := "TC-001", title := "w", steps := some [⟨"click", some "#a", none, none⟩] }
    [⟨"click", some "#a", none, none⟩] rfl (fun _ _ => rfl) (by decide)

/-- C10: the per-case isolation phase (clear cookies, clear storage,
re-navigate) runs inside `try { ... } catch (e) { /* ignore reload warns */ }`,
so an isolation error is silently discarded: the case proceeds into the same
step-execution body, with the same oracle for the remaining page state, and
the recorded outcome is identical to a run whose isolation phase did not
throw.  In particular an isolation failure alone never makes the result
`Fail` and never aborts the run. -/
theorem isolation_error_ignored (msg : String) (env : Step → Option String) (t : TCDesign) :
    runCase (some msg) env t = runCase none env t := rfl

/-- C3: evaluation at the failing input.  A step throwing
`locator not found` is classified `Fail-Selector` by `runPlaybookAction`, and
the original message becomes the log; but the per-case catch block assigns the
plain string `'Fail'` to `tc.result`, discarding the computed `failType`, so
the recorded result does not carry the sub-classification the spec
describes. -/
theorem failType_discarded_at_failing_input :
    (runCase none (fun _ => some "locator not found")
        { id := "TC-001", title := "t",
          steps := some [⟨"check", some "#logo", none, none⟩] }).result = "Fail" ∧
    (runCase none (fun _ => some "locator not found")
        { id := "TC-001", title := "t",
          steps := some [⟨"check", some "#logo", none, none⟩] }).log = "locator not found" ∧
    classifyFail "locator not found" = "Fail-Selector" ∧
    ¬(runCase none (fun _ => some "locator not found")
        { id := "TC-001", title := "t",
          steps := some [⟨"check", some "#logo", none, none⟩] }).result = "Fail-Selector" := by
  refine ⟨by decide, by decide, by decide, by decide⟩

/-- C2 counterexample: a candidate whose `steps` field is the empty array
passes every rejection rule (`!tc.steps` is false for an empty JS array) and
is accepted by `normalizeAndFilterTCs`, so accepted candidates do not always
have a non-empty `steps` array. -/
theorem validator_accepts_empty_steps :
    (normalizeAndFilterTCs
        [{ id := "TC-001", title := "빈 스텝", steps := some [] }] [] []).valid.length = 1 ∧
    ∀ tc ∈ (normalizeAndFilterTCs
        [{ id := "TC-001", title := "빈 스텝", steps := some [] }] [] []).valid,
      tc.steps = some [] := by
  refine ⟨by decide, by decide⟩

/-- Case analysis on one validator iteration: either the candidate is
rejected and the state is unchanged, or it passed every rejection rule and is
appended (together with its title and signature). -/
theorem filterOne_cases (st : FilterState) (tc : TCDesign) :
    filterOne st tc = st ∨
    ∃ steps, tc.steps = some steps ∧
      st.sigs.contains (signatureOf steps) = false ∧
      st.titles.any (fun t => isSimilar t tc.title) = false ∧
      ¬steps.map (fun s => s.action) = ["check"] ∧
      clickNoCheck (steps.map (fun s => s.action)) = false ∧
      missingSelector steps = false ∧
      badSelector steps = false ∧
      filterOne st tc =
        ⟨st.valid ++ [tc], st.titles ++ [tc.title], st.sigs ++ [signatureOf steps]⟩ := by
  rcases hs : tc.steps with _ | steps
  · refine Or.inl ?_
    simp only [filterOne, hs]
  · simp only [filterOne, hs]
    by_cases h1 : st.sigs.contains (signatureOf steps) = true
    · rw [if_pos h1]
      exact Or.inl rfl
    · rw [if_neg h1]
      by_cases h2 : st.titles.any (fun t => isSimilar t tc.title) = true
      · rw [if_pos h2]
        exact Or.inl rfl
      · rw [if_neg h2]
        by_cases h3 : steps.map (fun s => s.action) = ["check"]
        · rw [if_pos h3]
          exact Or.inl rfl
        · rw [if_neg h3]
          by_cases h4 : clickNoCheck (steps.map (fun s => s.action)) = true
          · rw [if_pos h4]
            exact Or.inl rfl
          · rw [if_neg h4]
            by_cases h5 : missingSelector steps = true
            · rw [if_pos h5]
              exact Or.inl rfl
            · rw [if_neg h5]
              by_cases h6 : badSelector steps = true
              · rw [if_pos h6]
                exact Or.inl rfl
              · rw [if_neg h6]
                exact Or.inr ⟨steps, rfl, by simpa using h1, by simpa using h2, h3,
                  by simpa using h4, by simpa using h5, by simpa using h6, rfl⟩

theorem filterOne_valid_invariant
    (P : TCDesign → Prop)
    (hP : ∀ (st : FilterState) (tc : TCDesign) (steps : List Step),
      tc.steps = some steps →
      st.sigs.contains (signatureOf steps) = false →
      st.titles.any (fun t => isSimilar t tc.title) = false →
      ¬steps.map (fun s => s.action) = ["check"] →
      clickNoCheck (steps.map (fun s => s.action)) = false →
      missingSelector steps = false →
      badSelector steps = false →
      P tc)
    (aiTCs : List TCDesign) :
    ∀ (st : FilterState), (∀ tc ∈ st.valid, P tc) →
      ∀ tc ∈ (aiTCs.foldl filterOne st).valid, P tc := by
  induction aiTCs with
  | nil => exact fun st h => h
  | cons tc rest ih =>
    intro st hst
    simp only [List.foldl_cons]
    refine ih (filterOne st tc) ?_
    intro tc2 htc2
    rcases filterOne_cases st tc with heq | ⟨steps, hs, h1, h2, h3, h4, h5, h6, heq⟩
    · rw [heq] at htc2
      exact hst tc2 htc2
    · rw [heq] at htc2
      simp only [List.mem_append, List.mem_singleton] at htc2
      rcases htc2 with htc2 | rfl
      · exact hst tc2 htc2
      · exact hP st tc2 steps hs h1 h2 h3 h4 h5 h6

/-- C2 (amended): every candidate accepted by `normalizeAndFilterTCs` has a
`steps` field that is an array — possibly empty, since `!tc.steps` is false
for an empty JS array — and whenever any of its steps has action `click` or
`clickNewTab`, at least one of its steps has action `check`. -/
theorem validator_accept_steps_click_check (aiTCs : List TCDesign)
    (titles sigs : List String) (tc : TCDesign)
    (h : tc ∈ (normalizeAndFilterTCs aiTCs titles sigs).valid) :
    ∃ l, tc.steps = some l ∧
      ((∃ s ∈ l, s.action = "click" ∨ s.action = "clickNewTab") →
        ∃ s ∈ l, s.action = "check") := by
  refine filterOne_valid_invariant
    (fun tc3 => ∃ l, tc3.steps = some l ∧
      ((∃ s ∈ l, s.action = "click" ∨ s.action = "clickNewTab") →
        ∃ s ∈ l, s.action = "check"))
    ?_ aiTCs ⟨[], titles, sigs⟩ (by simp) tc h
  intro st tc2 steps hs h1 h2 h3 h4 h5 h6
  refine ⟨steps, hs, ?_⟩
  intro hclick
  have h4i : ((∃ a ∈ steps, a.action = "click") ∨ ∃ a ∈ steps, a.action = "clickNewTab") →
      ∃ a ∈ steps, a.action = "check" := by
    simpa [clickNoCheck] using h4
  obtain ⟨s, hmem, hact | hact⟩ := hclick
  · exact h4i (Or.inl ⟨s, hmem, hact⟩)
  · exact h4i (Or.inr ⟨s, hmem, hact⟩)

theorem validator_accept_steps_click_check_witness :
    ∃ l, (⟨"", "로고 확인", "", "", "",
        some [⟨"check", some "#logo", none, none⟩,
              ⟨"click", some "#logo", none, none⟩]⟩ : TCDesign).steps = some l ∧
      ((∃ s ∈ l, s.action = "click" ∨ s.action = "clickNewTab") →
        ∃ s ∈ l, s.action = "check") :=
  validator_accept_steps_click_check
    [⟨"", "로고 확인", "", "", "",
      some [⟨"check", some "#logo", none, none⟩, ⟨"click", some "#logo", none, none⟩]⟩]
    [] []
    ⟨"", "로고 확인", "", "", "",
      some [⟨"check", some "#logo", none, none⟩, ⟨"click", some "#logo", none, none⟩]⟩
    (by decide)

theorem foldl_filterOne_valid_length (aiTCs : List TCDesign) :
    ∀ st : FilterState,
      (aiTCs.foldl filterOne st).valid.length ≤ st.valid.length + aiTCs.length := by
  induction aiTCs with
  | nil => simp
  | cons tc rest ih =>
    intro st
    simp only [List.foldl_cons, List.length_cons]
    rcases filterOne_cases st tc with heq | ⟨steps, _, _, _, _, _, _, _, heq⟩
    · rw [heq]
      have := ih st
      omega
    · rw [heq]
      have := ih ⟨st.valid ++ [tc], st.titles ++ [tc.title], st.sigs ++ [signatureOf steps]⟩
      simp only [List.length_append, List.length_singleton] at this
      omega

theorem normalizeAndFilterTCs_length_le (aiTCs : List TCDesign)
    (titles sigs : List String) :
    (normalizeAndFilterTCs aiTCs titles sigs).valid.length ≤ aiTCs.length := by
  have := foldl_filterOne_valid_length aiTCs ⟨[], titles, sigs⟩
  simpa [normalizeAndFilterTCs] using this

theorem renumber_length (offset : Nat) (l : List TCDesign) :
    (renumber offset l).length = l.length := by
  simp [renumber]

theorem loopState_succ (tcCount : Nat) (responses : Nat → Option (List TCDesign)) (n : Nat) :
    loopState tcCount responses (n + 1) =
      if (loopState tcCount responses n).allTestCases.length < tcCount ∧ n < maxRetries then
        genStep (loopState tcCount responses n) (responses n)
      else loopState tcCount responses n := rfl

theorem genStep_length (st : GenState) (l : List TCDesign) :
    (genStep st (some l)).allTestCases.length =
      st.allTestCases.length +
        (normalizeAndFilterTCs l st.allTitles st.signatureSet).valid.length := by
  simp [genStep, renumber_length]

theorem loopState_length_le (tcCount : Nat) (responses : Nat → Option (List TCDesign))
    (H : ∀ n l, responses n = some l →
      l.length ≤ min 30 (tcCount - (loopState tcCount responses n).allTestCases.length)) :
    ∀ n, (loopState tcCount responses n).allTestCases.length ≤ tcCount := by
  intro n
  induction n with
  | zero => exact Nat.zero_le tcCount
  | succ m ih =>
    rw [loopState_succ]
    by_cases hc : (loopState tcCount responses m).allTestCases.length < tcCount ∧ m < maxRetries
    · rw [if_pos hc]
      rcases hr : responses m with _ | l
      · exact ih
      · rw [genStep_length]
        have hb := H m l hr
        have hf := normalizeAndFilterTCs_length_le l
          (loopState tcCount responses m).allTitles
          (loopState tcCount responses m).signatureSet
        omega
    · rw [if_neg hc]
      exact ih

theorem loopState_stable (tcCount : Nat) (responses : Nat → Option (List TCDesign)) :
    ∀ n, maxRetries ≤ n →
      loopState tcCount responses n = loopState tcCount responses maxRetries := by
  intro n hn
  induction n with
  | zero =>
    have h10 : (10 : Nat) ≤ 0 := hn
    omega
  | succ m ih =>
    rcases Nat.lt_or_ge m maxRetries with hm | hm
    · have h9 : m + 1 = maxRetries := by
        simp only [maxRetries] at hm hn ⊢
        omega
      rw [h9]
    · have hnot : ¬((loopState tcCount responses m).allTestCases.length < tcCount ∧
          m < maxRetries) := by
        intro hc
        have h1 : m < 10 := hc.2
        have h2 : 10 ≤ m := hm
        omega
      rw [loopState_succ, if_neg hnot]
      exact ih hm

/-- C1 (amended): the Refill Loop always performs at most 10 iterations — the
loop state is frozen from iteration 10 on — and, provided every
generation-service response contains at most as many candidate designs as the
prompt of its iteration requested (`min(batchSize, remaining)` with
`batchSize = 30`), `generateTestCases` returns at most `TC_COUNT` accepted
cases.  Without that bound on the response size the target can be exceeded
(see the counterexample): the validator never truncates an accepted batch. -/
theorem refill_budget_and_bound (tcCount : Nat) (responses : Nat → Option (List TCDesign))
    (H : ∀ n l, responses n = some l →
      l.length ≤ min 30 (tcCount - (loopState tcCount responses n).allTestCases.length)) :
    (generateTestCases tcCount responses).length ≤ tcCount ∧
      ∀ n, 10 ≤ n → loopState tcCount responses n = loopState tcCount responses 10 :=
  ⟨loopState_length_le tcCount responses H maxRetries,
   loopState_stable tcCount responses⟩

theorem refill_budget_and_bound_witness :
    (generateTestCases 2 (fun n =>
      if n = 0 then
        some [⟨"", "로고 확인", "", "", "",
          some [⟨"check", some "#logo", none, none⟩,
                ⟨"click", some "#logo", none, none⟩]⟩]
      else none)).length ≤ 2 :=
  (refill_budget_and_bound 2
    (fun n =>
      if n = 0 then
        some [⟨"", "로고 확인", "", "", "",
          some [⟨"check", some "#logo", none, none⟩,
                ⟨"click", some "#logo", none, none⟩]⟩]
      else none)
    (by
      intro n l h
      cases n with
      | zero =>
        simp at h
        subst h
        decide
      | succ m => simp at h)).1

/-- C1 counterexample: with `TC_COUNT = 1` the first prompt requests
`min(30, 1) = 1` candidate, but a response carrying two valid, mutually
dissimilar designs gets both accepted — `normalizeAndFilterTCs` filters but
never truncates — so `generateTestCases` returns 2 > 1 cases. -/
theorem refill_exceeds_target :
    (generateTestCases 1 (fun n =>
      if n = 0 then
        some [⟨"", "abc", "", "", "",
                some [⟨"check", some "#a", none, none⟩, ⟨"click", some "#a", none, none⟩]⟩,
              ⟨"", "xyz", "", "", "",
                some [⟨"check", some "#b", none, none⟩, ⟨"click", some "#b", none, none⟩]⟩]
      else none)).length = 2 := by decide

theorem buildReport_total_eq (url ts : String) (tcCount : Nat) (fatal : Option String)
    (usage : Usage) (rows : List RowTC) :
    (buildReport url ts tcCount fatal usage rows).summary.total =
      (buildReport url ts tcCount fatal usage rows).testCases.length := by
  simp [buildReport]

/-- C4 counterexample: a run in which navigation succeeds but the Refill Loop
accepts zero cases across all retries (here: the generation service always
fails) hits `process.exit(1)` before the report block, so the run ends with
no report written at all. -/
theorem run_ends_without_report :
    sessionRun "https://example.com" "2026-10-11T00:00:00.000Z" 10 (Except.ok ())
      (fun _ => none) ⟨0, 0, 0⟩ (fun _ => none) (fun _ => none) = none := by decide

/-- C4 (amended): every run that fails with a fatal navigation/extraction
error, and every run in which the Refill Loop accepts at least one case,
writes the report, whose `summary` object is always present and consistent
(`total` equals the `testCases` length); but a run in which navigation
succeeds and zero cases are accepted exits with status 1 without writing any
report. -/
theorem report_written_unless_zero_cases (url ts : String) (tcCount : Nat)
    (nav : Except String Unit) (responses : Nat → Option (List TCDesign)) (usage : Usage)
    (isoErrs : Nat → Option String) (env : Step → Option String)
    (h : (∃ m, nav = Except.error m) ∨ generateTestCases tcCount responses ≠ []) :
    ∃ rep, sessionRun url ts tcCount nav responses usage isoErrs env = some rep ∧
      rep.summary.total = rep.testCases.length := by
  cases nav with
  | error m => exact ⟨_, rfl, buildReport_total_eq url ts tcCount _ usage []⟩
  | ok u =>
    cases u
    rcases h with ⟨m, hm⟩ | hne
    · exact absurd hm (by simp)
    · have hlen : ¬(generateTestCases tcCount responses).length = 0 := by
        simpa using hne
      have heq : sessionRun url ts tcCount (Except.ok ()) responses usage isoErrs env =
          some (buildReport url ts tcCount none usage
            ((generateTestCases tcCount responses).enum.map
              (fun p => runCase (isoErrs p.1) env p.2))) := by
        simp only [sessionRun]
        rw [if_neg hlen]
      exact ⟨_, heq, buildReport_total_eq url ts tcCount none usage _⟩

theorem report_written_unless_zero_cases_witness :
    ∃ rep, sessionRun "https://no-such-host.example" "2026-10-11T00:00:00.000Z" 10
        (Except.error "net::ERR_NAME_NOT_RESOLVED at https://no-such-host.example")
        (fun _ => none) ⟨0, 0, 0⟩ (fun _ => none) (fun _ => none) = some rep ∧
      rep.summary.total = rep.testCases.length :=
  report_written_unless_zero_cases "https://no-such-host.example"
    "2026-10-11T00:00:00.000Z" 10
    (Except.error "net::ERR_NAME_NOT_RESOLVED at https://no-such-host.example")
    (fun _ => none) ⟨0, 0, 0⟩ (fun _ => none) (fun _ => none)
    (Or.inl ⟨"net::ERR_NAME_NOT_RESOLVED at https://no-such-host.example", rfl⟩)

theorem charSet_empty : charSet "" = ∅ := rfl

/-- A candidate the similarity check lets through has claim-level Jaccard
similarity at most 0.6: the strict comparison failed, and in the guard cases
(an empty title, or an empty character union) the rational Jaccard value is
`0`. -/
theorem jaccard_le_of_not_similar (t1 t2 : String) (h : isSimilar t1 t2 = false) :
    jaccard t1 t2 ≤ 0.6 := by
  unfold isSimilar at h
  by_cases hg : (t1 = "" || t2 = "") = true
  · have hcard : (charSet t1 ∩ charSet t2).card = 0 := by
      simp only [Bool.or_eq_true, decide_eq_true_eq] at hg
      rcases hg with he | he
      · rw [he, charSet_empty]
        simp
      · rw [he, charSet_empty]
        simp
    unfold jaccard
    rw [hcard, Nat.cast_zero, zero_div]
    norm_num
  · rw [if_neg hg] at h
    have hgt := of_decide_eq_false h
    have hle : 10 * (charSet t1 ∩ charSet t2).card ≤ 6 * (charSet t1 ∪ charSet t2).card := by
      omega
    have hsub : (charSet t1 ∩ charSet t2).card ≤ (charSet t1 ∪ charSet t2).card :=
      Finset.card_le_card Finset.inter_subset_union
    unfold jaccard
    rcases Nat.eq_zero_or_pos (charSet t1 ∪ charSet t2).card with hu | hu
    · have hi : (charSet t1 ∩ charSet t2).card = 0 := by omega
      rw [hi, hu, Nat.cast_zero, zero_div]
      norm_num
    · rw [div_le_iff₀ (by exact_mod_cast hu)]
      have hc : ((10 * (charSet t1 ∩ charSet t2).card : Nat) : Rat) ≤
          ((6 * (charSet t1 ∪ charSet t2).card : Nat) : Rat) := by exact_mod_cast hle
      push_cast at hc
      linarith

/-- The projection of a design relevant to deduplication: its title and its
steps. -/
def projTC (tc : TCDesign) : String × Option (List Step) := (tc.title, tc.steps)

/-- Signature through the projection. -/
def projSig (p : String × Option (List Step)) : String := signatureOf (p.2.getD [])

/-- The deduplication relation on projections. -/
def projR (p q : String × Option (List Step)) : Prop :=
  projSig p ≠ projSig q ∧ jaccard p.1 q.1 ≤ 0.6

/-- Two accepted cases are deduplication-compatible: distinct signatures and
title Jaccard similarity at most 0.6. -/
def pairR (a b : TCDesign) : Prop := projR (projTC a) (projTC b)

theorem foldl_filterOne_good (base : List TCDesign) (aiTCs : List TCDesign) :
    ∀ st : FilterState,
      (base ++ st.valid).Pairwise pairR →
      (∀ tc ∈ base ++ st.valid, sigOfTC tc ∈ st.sigs ∧ tc.title ∈ st.titles) →
      ((base ++ (aiTCs.foldl filterOne st).valid).Pairwise pairR ∧
        ∀ tc ∈ base ++ (aiTCs.foldl filterOne st).valid,
          sigOfTC tc ∈ (aiTCs.foldl filterOne st).sigs ∧
            tc.title ∈ (aiTCs.foldl filterOne st).titles) := by
  induction aiTCs with
  | nil => exact fun st hp hm => ⟨hp, hm⟩
  | cons tc rest ih =>
    intro st hp hm
    simp only [List.foldl_cons]
    rcases filterOne_cases st tc with heq | ⟨steps, hs, h1, h2, h3, h4, h5, h6, heq⟩
    · rw [heq]
      exact ih st hp hm
    · rw [heq]
      have hassoc : base ++ (st.valid ++ [tc]) = (base ++ st.valid) ++ [tc] :=
        (List.append_assoc _ _ _).symm
      have hsigtc : sigOfTC tc = signatureOf steps := by simp [sigOfTC, hs]
      have hnotin : signatureOf steps ∉ st.sigs := by simpa using h1
      have hnotsim : ∀ x ∈ st.titles, ¬isSimilar x tc.title = true := by
        simpa using h2
      apply ih
      · show (base ++ (st.valid ++ [tc])).Pairwise pairR
        rw [hassoc, List.pairwise_append]
        refine ⟨hp, by simp, ?_⟩
        intro a ha b hb
        rw [List.mem_singleton] at hb
        subst hb
        obtain ⟨hsig, htitle⟩ := hm a ha
        constructor
        · show sigOfTC a ≠ sigOfTC b
          intro hcontra
          rw [hsigtc] at hcontra
          exact hnotin (hcontra ▸ hsig)
        · show jaccard a.title b.title ≤ 0.6
          apply jaccard_le_of_not_similar
          cases hbv : isSimilar a.title b.title with
          | false => rfl
          | true => exact absurd hbv (hnotsim a.title htitle)
      · intro tc2 htc2
        rw [hassoc, List.mem_append] at htc2
        rcases htc2 with hin | hin
        · obtain ⟨hsig, htitle⟩ := hm tc2 hin
          exact ⟨List.mem_append_left _ hsig, List.mem_append_left _ htitle⟩
        · rw [List.mem_singleton] at hin
          subst hin
          refine ⟨?_, List.mem_append_right _ (List.mem_singleton_self _)⟩
          rw [show sigOfTC tc2 = signatureOf steps by simp [sigOfTC, hs]]
          exact List.mem_append_right _ (List.mem_singleton_self _)

theorem enumFrom_map_projTC (offset : Nat) (l : List TCDesign) :
    ∀ i, ((List.enumFrom i l).map
        (fun p => ({ p.2 with id := tcIdString (offset + p.1 + 1) } : TCDesign))).map projTC
      = l.map projTC := by
  induction l with
  | nil => intro i; rfl
  | cons a t ih =>
    intro i
    simp only [List.enumFrom, List.map_cons]
    rw [ih (i + 1)]
    rfl

theorem renumber_map_projTC (offset : Nat) (l : List TCDesign) :
    (renumber offset l).map projTC = l.map projTC := by
  have := enumFrom_map_projTC offset l 0
  simpa [renumber, List.enum] using this

theorem pairwise_of_map_proj_eq (l1 l2 : List TCDesign)
    (h : l1.map projTC = l2.map projTC) (hp : l1.Pairwise pairR) : l2.Pairwise pairR := by
  have h1 : (l1.map projTC).Pairwise projR := List.pairwise_map.mpr hp
  rw [h] at h1
  have h2 := List.pairwise_map.mp h1
  exact h2

theorem mem_renumber_proj (offset : Nat) (l : List TCDesign) (tc : TCDesign)
    (h : tc ∈ renumber offset l) : ∃ tc0 ∈ l, projTC tc0 = projTC tc := by
  have hm : projTC tc ∈ (renumber offset l).map projTC := List.mem_map_of_mem _ h
  rw [renumber_map_projTC] at hm
  exact List.mem_map.mp hm

/-- The run-level deduplication invariant of the Refill Loop state. -/
def goodRun (st : GenState) : Prop :=
  st.allTestCases.Pairwise pairR ∧
  ∀ tc ∈ st.allTestCases, sigOfTC tc ∈ st.signatureSet ∧ tc.title ∈ st.allTitles

theorem genStep_some (st : GenState) (parsed : List TCDesign) :
    genStep st (some parsed) =
      { allTestCases := st.allTestCases ++
          renumber st.allTestCases.length
            (normalizeAndFilterTCs parsed st.allTitles st.signatureSet).valid
        allTitles := (normalizeAndFilterTCs parsed st.allTitles st.signatureSet).titles ++
          (renumber st.allTestCases.length
            (normalizeAndFilterTCs parsed st.allTitles st.signatureSet).valid).map
              (fun tc => tc.title)
        signatureSet := (normalizeAndFilterTCs parsed st.allTitles st.signatureSet).sigs } :=
  rfl

theorem genStep_good (st : GenState) (resp : Option (List TCDesign))
    (h : goodRun st) : goodRun (genStep st resp) := by
  rcases resp with _ | parsed
  · exact h
  · obtain ⟨hp, hm⟩ := h
    obtain ⟨hp2, hm2⟩ := foldl_filterOne_good st.allTestCases parsed
      ⟨[], st.allTitles, st.signatureSet⟩ (by simpa using hp) (by simpa using hm)
    rw [genStep_some]
    constructor
    · apply pairwise_of_map_proj_eq
        (st.allTestCases ++ (normalizeAndFilterTCs parsed st.allTitles st.signatureSet).valid)
      · simp [List.map_append, renumber_map_projTC]
      · exact hp2
    · intro tc htc
      rw [List.mem_append] at htc
      rcases htc with hin | hin
      · obtain ⟨hsig, htitle⟩ := hm2 tc (List.mem_append_left _ hin)
        exact ⟨hsig, List.mem_append_left _ htitle⟩
      · obtain ⟨tc0, h0, hproj⟩ := mem_renumber_proj _ _ tc hin
        obtain ⟨hsig, _⟩ := hm2 tc0 (List.mem_append_right _ h0)
        refine ⟨?_, ?_⟩
        · have : sigOfTC tc0 = sigOfTC tc := congrArg projSig hproj
          exact this ▸ hsig
        · exact List.mem_append_right _
            (List.mem_map_of_mem (fun tc3 => tc3.title) hin)

theorem loopState_good (tcCount : Nat) (responses : Nat → Option (List TCDesign)) :
    ∀ n, goodRun (loopState tcCount responses n) := by
  intro n
  induction n with
  | zero => exact ⟨List.Pairwise.nil, fun tc htc => nomatch htc⟩
  | succ m ih =>
    rw [loopState_succ]
    by_cases hc : (loopState tcCount responses m).allTestCases.length < tcCount ∧
        m < maxRetries
    · rw [if_pos hc]
      exact genStep_good _ _ ih
    · rw [if_neg hc]
      exact ih

/-- C5: any two distinct cases accepted within one run have distinct
signatures (the `|`-joined ordered `action:selector` sequences over their
steps) and character-set Jaccard similarity of their whitespace-stripped
titles at most 0.6. -/
theorem accepted_cases_pairwise_distinct (tcCount : Nat)
    (responses : Nat → Option (List TCDesign)) :
    (generateTestCases tcCount responses).Pairwise
      (fun a b => sigOfTC a ≠ sigOfTC b ∧ jaccard a.title b.title ≤ 0.6) :=
  (loopState_good tcCount responses maxRetries).1
